import Mathlib

/-!
Verification of the shade `OpenStackCloud` control layer
(`src/shade/openstackcloud.py`) against its specification.

The development is a shallow embedding: each Python method that a claim
touches is translated into a pure Lean function.  External collaborators
(the task-submission gateway, the normalizers in `shade._utils` and
`shade.meta`, the dogpile cache store, `_utils._iterate_timeout`) are
represented by oracle parameters: the outcome a backend call would have is
passed in as data, and the function reproduces the control flow of the
source on those outcomes.  Bounded polling loops consume a list of poll
outcomes; exhausting the list models the deadline of `_iterate_timeout`
expiring.
-/

/-! ## Errors

The shade error taxonomy, as observed by callers of the embedded verbs.
`cloudException` covers `OpenStackCloudException` including the wrapping
performed by `shade._utils.shade_exceptions` and `neutron_exceptions`;
`timeoutExc` is the `OpenStackCloudTimeout` raised by
`_utils._iterate_timeout` when the deadline passes; `typeError` models the
Python `TypeError` of subscripting `None`. -/

inductive Err
  | cloudException (msg : String)
  | uriNotFound
  | resourceNotFound (msg : String)
  | timeoutExc (msg : String)
  | unavailableFeature (msg : String)
  | typeError
deriving DecidableEq

/-! ## Resource descriptors (the fields the embedded control flow reads) -/

structure Volume where
  id : String
  status : String
deriving DecidableEq

structure Image where
  id : String
  status : String
deriving DecidableEq

structure Stack where
  id : String
  stack_status : String
deriving DecidableEq

/-- A server as the embedded code reads it: `server[\x7bid\x7d]` and the
`server[\x7bimage\x7d]` field used by `_delete_server`; `image = none`
models a falsy image entry, `some anId` a dict with an `id` key. -/
structure Server where
  id : String
  image : Option String
deriving DecidableEq

structure FloatingIp where
  id : String
  floating_ip_address : String
deriving DecidableEq

/-! ## Lexicographic string order (Python `sorted` on `kwargs.keys()`)

Python compares strings lexicographically by code point; `String.le` in
Lean is defined through well-founded recursion and does not reduce in the
kernel, so the order is re-derived here on `List Char`. -/

def lexLe : List Char → List Char → Bool
  | [], _ => true
  | _ :: _, [] => false
  | a :: as, b :: bs =>
    if a < b then true
    else if b < a then false
    else lexLe as bs

def lexLt : List Char → List Char → Bool
  | [], [] => false
  | [], _ :: _ => true
  | _ :: _, [] => false
  | a :: as, b :: bs =>
    if a < b then true
    else if b < a then false
    else lexLt as bs

def kwLe (p q : String × String) : Prop := lexLe p.1.data q.1.data = true

def kwLt (p q : String × String) : Prop := lexLt p.1.data q.1.data = true

instance : DecidableRel kwLe := fun p q => by
  unfold kwLe; infer_instance

/-- The keyword arguments of one call, sorted by key: Python iterates
`sorted(kwargs.keys())` and reads `kwargs[k]`; since the keys of a dict are
pairwise distinct this equals sorting the key-value pairs by key. -/
def sortKw (l : List (String × String)) : List (String × String) :=
  List.insertionSort kwLe l

/-! ## Cache keys: `OpenStackCloud._make_cache_key` -/

/-- Embedding of `_make_cache_key` (and the closure `generate_key` it
returns).  `name` is `self.name`, `nsp` the dogpile namespace, `fname` the
decorated function, `args` the positional arguments (strings, joined with
commas), `kwargs` the keyword arguments.  As in the source, keys are
sorted, a key equal to `cache` is dropped, each kept pair is rendered
`k:v`, and the pieces are joined with underscores. -/
def make_cache_key (name : String) (nsp : Option String) (fname : String)
    (args : List String) (kwargs : List (String × String)) : String :=
  let name_key := match nsp with
    | none => name
    | some ns => name ++ ":" ++ ns
  let arg_key := String.intercalate "," args
  let kwargs_key := String.intercalate ","
    (((sortKw kwargs).filter (fun p => p.1 != "cache")).map
      (fun p => p.1 ++ ":" ++ p.2))
  String.intercalate "_" [name_key, fname, arg_key, kwargs_key]

/-! ## Staleness predicates (module functions of `shade.openstackcloud`) -/

/-- Embedding of `_no_pending_volumes`: false as soon as one volume has a
status outside `available`, `error`, `in-use`. -/
def no_pending_volumes : List Volume → Bool
  | [] => true
  | v :: rest =>
    if !(v.status == "available" || v.status == "error" || v.status == "in-use")
    then false
    else no_pending_volumes rest

/-- Embedding of `_no_pending_images`: false as soon as one image has a
status outside `active`, `deleted`, `killed`. -/
def no_pending_images : List Image → Bool
  | [] => true
  | i :: rest =>
    if !(i.status == "active" || i.status == "deleted" || i.status == "killed")
    then false
    else no_pending_images rest

/-- Whether `pat` starts `l` (character-wise equality of a leading run). -/
def startsList : List Char → List Char → Bool
  | [], _ => true
  | _ :: _, [] => false
  | p :: ps, c :: cs => p == c && startsList ps cs

/-- Whether `pat` occurs contiguously inside `l`: the Python substring test
`pat in s`. -/
def occursIn (pat : List Char) : List Char → Bool
  | [] => startsList pat []
  | c :: cs => startsList pat (c :: cs) || occursIn pat cs

def strContains (s pat : String) : Bool := occursIn pat.data s.data

/-- Embedding of `_no_pending_stacks`: false as soon as one stack status
contains neither `_COMPLETE` nor `_FAILED`. -/
def no_pending_stacks : List Stack → Bool
  | [] => true
  | s :: rest =>
    if !(strContains s.stack_status "_COMPLETE"
         || strContains s.stack_status "_FAILED")
    then false
    else no_pending_stacks rest

/-! ## The cache layer -/

/-- One read through the cache: the value delivered to the caller, the
entry left behind for the key, and whether a backend fetch happened. -/
structure ReadOutcome (α : Type) where
  value : α
  entry : Option α
  fetched : Bool

/-- Modelled from the spec: the Cache Layer `cached_read` contract of
section 4.2.  The memoization machinery itself (dogpile through
`shade._utils.cache_on_arguments`) is not among the given source files,
only its per-kind staleness predicates are; per the spec, a read with a
live entry returns it without fetching, and otherwise the value is
computed, returned to the caller, and stored only when the staleness
predicate accepts it — on a rejection no entry is stored. -/
def cached_read {α : Type} (entry : Option α) (compute : α)
    (should_cache : α → Bool) : ReadOutcome α :=
  match entry with
  | some v => ⟨v, some v, false⟩
  | none => ⟨compute, if should_cache compute then some compute else none, true⟩

/-! ## `list_servers`: the single-flight server inventory -/

/-- The shared snapshot fields `self._servers` and `self._servers_time`. -/
structure ServersState where
  servers : List Server
  servers_time : Int
deriving DecidableEq

/-- Lock and task events of one `list_servers` call, in program order:
`acquire b` is `self._servers_lock.acquire(blocking := b)`, `fetchTask`
the `_list_servers` backend call, `store` the assignment of `_servers`
and `_servers_time`, `release` the release in the `finally` block. -/
inductive LsEv
  | acquire (blocking : Bool)
  | fetchTask
  | store
  | release
deriving DecidableEq

structure LsOutcome where
  state : ServersState
  result : List Server
  trace : List LsEv
deriving DecidableEq

/-- Embedding of `list_servers`.  `tryAcquire b` is the outcome of
`self._servers_lock.acquire(b)` (a blocking acquire, `b = true`, always
eventually returns true); `fetch` is `_list_servers`, which depends on the
`detailed` argument; `fetchTime` the clock reading stored after the fetch.
The source refreshes when `time.time() - self._servers_time` is at least
`self._SERVER_AGE`, passing `len(self._servers) == 0` as the blocking
flag, and otherwise serves the snapshot. -/
def list_servers (st : ServersState) (now age : Int)
    (tryAcquire : Bool → Bool) (fetch : Bool → List Server)
    (fetchTime : Int) (detailed : Bool) : LsOutcome :=
  if age ≤ now - st.servers_time then
    let blocking := st.servers.length == 0
    if tryAcquire blocking then
      let fresh := fetch detailed
      ⟨⟨fresh, fetchTime⟩, fresh,
        [.acquire blocking, .fetchTask, .store, .release]⟩
    else
      ⟨st, st.servers, [.acquire blocking]⟩
  else
    ⟨st, st.servers, []⟩

/-! ## Dual-backend floating-IP operations

Each neutron call is wrapped by `_utils.neutron_exceptions`, so the verb
observes one of: success, `OpenStackCloudResourceNotFound`,
`OpenStackCloudURINotFound`, or a generic `OpenStackCloudException`.  The
oracle below is that observed outcome. -/

inductive NeutronCall
  | ok
  | resourceNotFound
  | uriNotFound
  | otherErr (msg : String)
deriving DecidableEq

/-- Outcome of a nova client call as the verb observes it: success, the
`novaclient` NotFound error, an `OpenStackCloudException` re-raised as is,
or any other exception (wrapped into `OpenStackCloudException`). -/
inductive NovaCall
  | ok
  | notFound
  | cloudErr (msg : String)
  | otherErr (msg : String)
deriving DecidableEq

/-- Embedding of `_neutron_delete_floating_ip`: the inner try converts
`OpenStackCloudResourceNotFound` into `False`; everything else escapes. -/
def neutron_delete_floating_ip : NeutronCall → Except Err Bool
  | .ok => .ok true
  | .resourceNotFound => .ok false
  | .uriNotFound => .error .uriNotFound
  | .otherErr m => .error (.cloudException m)

/-- Embedding of `_nova_delete_floating_ip`: nova NotFound becomes
`False`, `OpenStackCloudException` is re-raised, anything else is wrapped. -/
def nova_delete_floating_ip (fipId : String) : NovaCall → Except Err Bool
  | .ok => .ok true
  | .notFound => .ok false
  | .cloudErr m => .error (.cloudException m)
  | .otherErr m =>
    .error (.cloudException ("Unable to delete floating IP id " ++ fipId ++ ": " ++ m))

structure DeleteFipOutcome where
  result : Except Err Bool
  novaCalled : Bool
  fallbackLogged : Bool

/-- Embedding of `delete_floating_ip`: on a cloud with the network
service the neutron path runs first; only `OpenStackCloudURINotFound`
is caught, logged, and retried against nova. -/
def delete_floating_ip (hasNetwork : Bool) (neutron : NeutronCall)
    (nova : NovaCall) (fipId : String) : DeleteFipOutcome :=
  if hasNetwork then
    match neutron_delete_floating_ip neutron with
    | .error .uriNotFound => ⟨nova_delete_floating_ip fipId nova, true, true⟩
    | r => ⟨r, false, false⟩
  else
    ⟨nova_delete_floating_ip fipId nova, true, false⟩

structure CreateFipOutcome where
  result : Except Err FloatingIp
  novaCalled : Bool
  fallbackLogged : Bool

/-- Embedding of `create_floating_ip`.  `neutronCall` carries the value
`_neutron_create_floating_ip` would return; `novaCall` the nova pool
allocation; `normN` and `normV` stand for the external normalizers
`_utils.normalize_neutron_floating_ips` and
`_utils.normalize_nova_floating_ips` applied to a one-element list. -/
def create_floating_ip (hasNetwork : Bool)
    (neutronCall : NeutronCall) (neutronVal : FloatingIp)
    (novaCall : NovaCall) (novaVal : FloatingIp)
    (normN normV : FloatingIp → FloatingIp) : CreateFipOutcome :=
  let novaLeg : Bool → CreateFipOutcome := fun logged =>
    match novaCall with
    | .ok => ⟨.ok (normV novaVal), true, logged⟩
    | .notFound => ⟨.error (.cloudException "Unable to create floating IP in pool"), true, logged⟩
    | .cloudErr m => ⟨.error (.cloudException m), true, logged⟩
    | .otherErr m => ⟨.error (.cloudException m), true, logged⟩
  if hasNetwork then
    match neutronCall with
    | .ok => ⟨.ok (normN neutronVal), false, false⟩
    | .uriNotFound => novaLeg true
    | .resourceNotFound =>
      ⟨.error (.resourceNotFound "unable to find network for floating ips"), false, false⟩
    | .otherErr m => ⟨.error (.cloudException m), false, false⟩
  else
    novaLeg false

/-- Python `ext_ip == floating_ip[addr]` where `ext_ip` may be `None`:
`None` never equals a string. -/
def optEqStr (o : Option String) (s : String) : Bool :=
  match o with
  | some t => t == s
  | none => false

structure AttachOutcome where
  result : Except Err Server
  neutronSubmitted : Bool
  novaSubmitted : Bool
  fallbackLogged : Bool
  pollsUsed : Nat

/-- The wait loop of `_attach_ip_to_server`: each iteration refreshes the
server through `get_server_by_id` (the successive values are the `polls`
list) and returns it once `meta.get_server_ip` (oracle `serverIp`) shows
the requested address; an exhausted list is the `_iterate_timeout`
deadline expiring. -/
def attach_wait_loop (serverIp : Server → Option String) (addr : String) :
    List Server → Except Err Server × Nat
  | [] => (.error (.timeoutExc "Timeout waiting for the floating IP to be attached."), 0)
  | s :: rest =>
    if optEqStr (serverIp s) addr then (.ok s, 1)
    else
      let r := attach_wait_loop serverIp addr rest
      (r.1, r.2 + 1)

/-- Embedding of `_attach_ip_to_server`.  `serverIp` is the external
`meta.get_server_ip(server, ext_tag=floating)`.  Note the source control
flow: when the cloud has the network service and the neutron update raises
`OpenStackCloudURINotFound`, the handler only logs — the nova attach sits
in the `else` branch of `has_service(network)` and is never reached. -/
def attach_ip_to_server (server : Server) (serverIp : Server → Option String)
    (fip : FloatingIp) (hasNetwork skipAttach : Bool)
    (neutron : NeutronCall) (nova : NovaCall)
    (wait : Bool) (polls : List Server) : AttachOutcome :=
  if optEqStr (serverIp server) fip.floating_ip_address then
    ⟨.ok server, false, false, false, 0⟩
  else
    let step : Except Err Unit × Bool × Bool × Bool :=
      if hasNetwork then
        if !skipAttach then
          match neutron with
          | .ok => (.ok (), true, false, false)
          | .uriNotFound => (.ok (), true, false, true)
          | .resourceNotFound =>
            (.error (.resourceNotFound "unable to bind a floating ip to server"), true, false, false)
          | .otherErr m => (.error (.cloudException m), true, false, false)
        else (.ok (), false, false, false)
      else
        match nova with
        | .ok => (.ok (), false, true, false)
        | .notFound => (.error (.cloudException "Error attaching IP"), false, true, false)
        | .cloudErr m => (.error (.cloudException m), false, true, false)
        | .otherErr m => (.error (.cloudException m), false, true, false)
    match step with
    | (.error e, n, v, l) => ⟨.error e, n, v, l, 0⟩
    | (.ok _, n, v, l) =>
      if wait then
        let r := attach_wait_loop serverIp fip.floating_ip_address polls
        ⟨r.1, n, v, l, r.2⟩
      else
        ⟨.ok server, n, v, l, 0⟩

/-! ## Volume creation and the convergence loop -/

/-- Terminal classification of the `create_volume` wait loop. -/
inductive CVResult
  | available (v : Volume)
  | errorStatus
  | timedOut
deriving DecidableEq

/-- The wait loop of `create_volume`: each iteration is one
`get_volume(vol_id)` read (`none` models a missing volume).  A read with
status `available` returns it, status `error` raises, anything else —
including a missing volume — continues; an exhausted list is the
`_iterate_timeout` deadline expiring.  The second component counts the
polls issued. -/
def create_volume_wait : List (Option Volume) → CVResult × Nat
  | [] => (.timedOut, 0)
  | p :: rest =>
    match p with
    | none =>
      let r := create_volume_wait rest
      (r.1, r.2 + 1)
    | some v =>
      if v.status == "available" then (.available v, 1)
      else if v.status == "error" then (.errorStatus, 1)
      else
        let r := create_volume_wait rest
        (r.1, r.2 + 1)

structure CreateVolOutcome where
  result : Except Err Volume
  volumesInvalidated : Bool
  polls : Nat

/-- Embedding of `create_volume` (after `_get_volume_kwargs`).  `image`:
`none` means no image argument, `some none` an image argument that
`get_image` cannot resolve, `some (some i)` a resolved image.  `created`
is the outcome of the `VolumeCreate` task inside `shade_exceptions`.  The
source calls `self.list_volumes.invalidate(self)` only after the `with`
block, so a raising create task leaves the cache untouched; `normV`
stands for `_utils.normalize_volumes`, applied on the no-wait return. -/
def create_volume (image : Option (Option String))
    (created : Except String Volume) (wait : Bool)
    (polls : List (Option Volume)) (normV : Volume → Volume) : CreateVolOutcome :=
  match image with
  | some none =>
    ⟨.error (.cloudException "Image was requested as the basis for a new volume, but was not found on the cloud"),
      false, 0⟩
  | _ =>
    match created with
    | .error _ => ⟨.error (.cloudException "Error in creating volume"), false, 0⟩
    | .ok volume =>
      if volume.status == "error" then
        ⟨.error (.cloudException "Error in creating volume"), true, 0⟩
      else if wait then
        match create_volume_wait polls with
        | (.available v, n) => ⟨.ok v, true, n⟩
        | (.errorStatus, n) =>
          ⟨.error (.cloudException "Error in creating volume, please check logs"), true, n⟩
        | (.timedOut, n) =>
          ⟨.error (.timeoutExc "Timeout waiting for the volume to be available."), true, n⟩
      else
        ⟨.ok (normV volume), true, 0⟩

/-! ## Delete verbs -/

/-- The wait loop of `delete_volume`: each iteration is one
`get_volume(id)` read; a missing volume breaks the loop, an exhausted
list is the `_iterate_timeout` deadline expiring. -/
def volume_delete_wait : List (Option Volume) → Except Err Unit
  | [] => .error (.timeoutExc "Timeout waiting for the volume to be deleted.")
  | none :: _ => .ok ()
  | some _ :: rest => volume_delete_wait rest

structure DelVolOutcome where
  result : Except Err Bool
  invalidations : Nat

/-- Embedding of `delete_volume`: invalidate, look the volume up (absent
means `False`), submit the delete inside `shade_exceptions`, invalidate
again, optionally wait for disappearance, and return `True`. -/
def delete_volume (volume : Option Volume) (deleteOk : Bool) (wait : Bool)
    (polls : List (Option Volume)) : DelVolOutcome :=
  match volume with
  | none => ⟨.ok false, 1⟩
  | some _ =>
    if !deleteOk then ⟨.error (.cloudException "Error in deleting volume"), 1⟩
    else if wait then
      match volume_delete_wait polls with
      | .error e => ⟨.error e, 2⟩
      | .ok _ => ⟨.ok true, 2⟩
    else ⟨.ok true, 2⟩

/-- Embedding of `delete_stack`: absent stack means `False`; a failing
`StackDelete` task raises out of `shade_exceptions`; otherwise `True`. -/
def delete_stack (stack : Option Stack) (deleteOk : Bool) : Except Err Bool :=
  match stack with
  | none => .ok false
  | some _ =>
    if deleteOk then .ok true
    else .error (.cloudException "Failed to delete stack")

/-- Embedding of `delete_security_group`: absent group means `False`;
otherwise the configured `secgroup_source` (neutron or nova) performs the
delete, and any other source raises `OpenStackCloudUnavailableFeature`. -/
def delete_security_group (secgroup : Option String) (source : String)
    (deleteOk : Bool) : Except Err Bool :=
  match secgroup with
  | none => .ok false
  | some _ =>
    if source == "neutron" then
      if deleteOk then .ok true
      else .error (.cloudException "Error deleting security group")
    else if source == "nova" then
      if deleteOk then .ok true
      else .error (.cloudException "Failed to delete security group")
    else .error (.unavailableFeature "Unavailable feature: security groups")

/-- One iteration of the `_delete_server` wait loop, as observed through
`get_server_by_id`: a server that is still there, a falsy result, the
nova NotFound error, a re-raised `OpenStackCloudException`, or any other
exception (wrapped). -/
inductive ServerPoll
  | found (s : Server)
  | gone
  | notFoundExc
  | cloudErr (msg : String)
  | otherErr (msg : String)
deriving DecidableEq

/-- The wait loop of `_delete_server`: `found` rebinds the loop variable
`server` and continues, `gone` breaks with a falsy server, `notFoundExc`
breaks keeping the last bound server, errors raise, and an exhausted list
is the `_iterate_timeout` deadline expiring.  Returns the value the name
`server` holds after the loop. -/
def server_delete_wait (cur : Server) : List ServerPoll → Except Err (Option Server)
  | [] => .error (.timeoutExc "Timed out waiting for server to get deleted.")
  | .found s :: rest => server_delete_wait s rest
  | .gone :: _ => .ok none
  | .notFoundExc :: _ => .ok (some cur)
  | .cloudErr m :: _ => .error (.cloudException m)
  | .otherErr m :: _ => .error (.cloudException ("Error in deleting server: " ++ m))

/-- Truthiness of `server[image]` and `server[image][id]` in the volume
check of `_delete_server`. -/
def serverImageFalsy (s : Server) : Bool :=
  match s.image with
  | none => true
  | some i => i == ""

structure DelServerOutcome where
  result : Except Err Bool
  volumesInvalidated : Bool
  serversTimeDecremented : Bool

/-- Embedding of `delete_server`/`_delete_server`.  `server` is the
`get_server` lookup; `serverFip` the external `meta.get_server_ip`;
`fipSearch` the `search_floating_ips` result and `fipDelete` the outcome
of `delete_floating_ip` on it; `delOutcome` the `ServerDelete` task;
`polls` the wait-loop reads; `volumeRelated` the truthiness of
`get_volume(server)`.  With `wait=False` the verb returns `True` right
after the delete task — the volume-cache invalidation and the
`_servers_time` decrement at the end of the source are only reached on
the waiting path. -/
def delete_server (server : Option Server) (deleteIps : Bool)
    (serverFip : Option String) (fipSearch : List FloatingIp)
    (fipDelete : Except Err Bool) (delOutcome : NovaCall)
    (wait : Bool) (polls : List ServerPoll)
    (hasVolumeService : Bool) (volumeRelated : Bool) : DelServerOutcome :=
  match server with
  | none => ⟨.ok false, false, false⟩
  | some s =>
    let afterIps : Except Err Unit :=
      if deleteIps then
        match serverFip with
        | none => .ok ()
        | some _ =>
          if fipSearch.length != 1 then
            .error (.cloudException "Tried to delete floating ip associated with server but there was an error finding it.")
          else
            match fipDelete with
            | .error e => .error e
            | .ok _ => .ok ()
      else .ok ()
    match afterIps with
    | .error e => ⟨.error e, false, false⟩
    | .ok _ =>
      match delOutcome with
      | .notFound => ⟨.ok false, false, false⟩
      | .cloudErr m => ⟨.error (.cloudException m), false, false⟩
      | .otherErr m => ⟨.error (.cloudException ("Error in deleting server: " ++ m)), false, false⟩
      | .ok =>
        if !wait then ⟨.ok true, false, false⟩
        else
          match server_delete_wait s polls with
          | .error e => ⟨.error e, false, false⟩
          | .ok finalSrv =>
            if hasVolumeService then
              match finalSrv with
              | none => ⟨.error .typeError, false, false⟩
              | some fs =>
                ⟨.ok true, serverImageFalsy fs || volumeRelated, true⟩
            else ⟨.ok true, false, true⟩

/-- The wait loop of `delete_image`: each iteration invalidates the cache
and reads `get_image(id)`; a missing image triggers a bare `return`
(Python `None`), an exhausted list is the `_iterate_timeout` deadline
expiring. -/
def image_delete_wait : List (Option Image) → Except Err (Option Bool)
  | [] => .error (.timeoutExc "Timeout waiting for the image to be deleted.")
  | none :: _ => .ok none
  | some _ :: rest => image_delete_wait rest

/-- Embedding of `delete_image`.  The verb never produces a boolean: on
success it falls off the end (or hits the bare `return` of the wait
loop), which is Python `None`, modeled `Except.ok none`; with an absent
image `image.id` raises `AttributeError`, which `shade_exceptions` wraps
into the error of the `with` block. -/
def delete_image (image : Option Image) (deleteOk : Bool) (wait : Bool)
    (polls : List (Option Image)) : Except Err (Option Bool) :=
  match image with
  | none => .error (.cloudException "Error in deleting image")
  | some _ =>
    if !deleteOk then .error (.cloudException "Error in deleting image")
    else if wait then image_delete_wait polls
    else .ok none

/-! ## The asynchronous image-import task of `_upload_image_task` -/

/-- The transient Rackspace import failure code (module constant
`IMAGE_ERROR_396`); the single quotes are built explicitly from their
code point. -/
def IMAGE_ERROR_396 : String :=
  "Image cannot be imported. Error code: " ++ String.mk [Char.ofNat 39]
    ++ "396" ++ String.mk [Char.ofNat 39]

/-- One poll of the glance task (`ImageTaskGet`): an
`HTTPServiceUnavailable` that is caught and retried, or a status object
with its `status`, `message` and `result[image_id]` fields. -/
inductive TaskPoll
  | unavailable
  | st (status msg imageId : String)
deriving DecidableEq

inductive ImportRes
  | success (imageId : String)
  | failed (msg : String)
  | timedOut
deriving DecidableEq

structure ImportPhaseOut where
  result : ImportRes
  resubmits : Nat
deriving DecidableEq

/-- The task-polling phase of the `_upload_image_task` wait loop: a
`success` status moves on to fetching the image, a `failure` whose
message is exactly `IMAGE_ERROR_396` resubmits the whole import task
(counted) and keeps polling, any other `failure` raises immediately, any
other status — and a caught `HTTPServiceUnavailable` — just polls again;
an exhausted list is the `_iterate_timeout` deadline expiring. -/
def import_phase : List TaskPoll → ImportPhaseOut
  | [] => ⟨.timedOut, 0⟩
  | .unavailable :: rest => import_phase rest
  | .st status msg imageId :: rest =>
    if status == "success" then ⟨.success imageId, 0⟩
    else if status == "failure" then
      if msg == IMAGE_ERROR_396 then
        let r := import_phase rest
        ⟨r.result, r.resubmits + 1⟩
      else ⟨.failed msg, 0⟩
    else import_phase rest

/-- One `get_image` attempt after the task succeeded: a caught
`HTTPServiceUnavailable`, a not-yet-visible image, or the image. -/
inductive ImgFetch
  | unavailable
  | missing
  | found (img : Image)
deriving DecidableEq

/-- The image-fetching phase after a `success` status: unavailable and
missing reads continue the loop, a found image is returned (after the
property update); an exhausted list is the deadline expiring. -/
def image_phase : List ImgFetch → Except Err Image
  | [] => .error (.timeoutExc "Timeout waiting for the image to import.")
  | .unavailable :: rest => image_phase rest
  | .missing :: rest => image_phase rest
  | .found img :: _ => .ok img

/-- The whole waiting part of `_upload_image_task` (`wait=True`): the
task-polling phase followed, on success, by the image-fetching phase.
The second component counts the import-task resubmissions. -/
def upload_image_task_wait (polls : List TaskPoll) (fetches : List ImgFetch) :
    Except Err Image × Nat :=
  match import_phase polls with
  | ⟨.success _, n⟩ => (image_phase fetches, n)
  | ⟨.failed m, n⟩ => (.error (.cloudException ("Image creation failed: " ++ m)), n)
  | ⟨.timedOut, n⟩ => (.error (.timeoutExc "Timeout waiting for the image to import."), n)

/-! ## Helper lemmas: the lexicographic order and the keyword sort -/

theorem lexLe_total : ∀ as bs, lexLe as bs = true ∨ lexLe bs as = true := by
  intro as
  induction as with
  | nil => intro bs; left; rfl
  | cons a as ih =>
    intro bs
    cases bs with
    | nil => right; rfl
    | cons b bs =>
      rcases lt_trichotomy a b with h | h | h
      · left; simp [lexLe, h]
      · subst h
        rcases ih bs with h2 | h2
        · left; simp [lexLe, lt_irrefl, h2]
        · right; simp [lexLe, lt_irrefl, h2]
      · right; simp [lexLe, h]

theorem lexLe_eq_or_lt : ∀ as bs, lexLe as bs = true →
    as = bs ∨ lexLt as bs = true := by
  intro as
  induction as with
  | nil =>
    intro bs _
    cases bs with
    | nil => left; rfl
    | cons b bs => right; rfl
  | cons a as ih =>
    intro bs h
    cases bs with
    | nil => simp [lexLe] at h
    | cons b bs =>
      rcases lt_trichotomy a b with hab | hab | hab
      · right; simp [lexLt, hab]
      · subst hab
        simp [lexLe, lt_irrefl] at h
        rcases ih bs h with h2 | h2
        · left; rw [h2]
        · right; simp [lexLt, lt_irrefl, h2]
      · simp [lexLe, hab, not_lt_of_lt hab] at h

theorem lexLe_of_lexLt : ∀ as bs, lexLt as bs = true → lexLe as bs = true := by
  intro as
  induction as with
  | nil => intro bs _; rfl
  | cons a as ih =>
    intro bs h
    cases bs with
    | nil => simp [lexLt] at h
    | cons b bs =>
      rcases lt_trichotomy a b with hab | hab | hab
      · simp [lexLe, hab]
      · subst hab
        simp [lexLt, lt_irrefl] at h
        simp [lexLe, lt_irrefl]
        exact ih bs h
      · simp [lexLt, hab, not_lt_of_lt hab] at h

theorem lexLt_trans : ∀ as bs cs, lexLt as bs = true → lexLt bs cs = true →
    lexLt as cs = true := by
  intro as
  induction as with
  | nil =>
    intro bs cs h1 h2
    cases bs with
    | nil => simp [lexLt] at h1
    | cons b bs =>
      cases cs with
      | nil => simp [lexLt] at h2
      | cons c cs => rfl
  | cons a as ih =>
    intro bs cs h1 h2
    cases bs with
    | nil => simp [lexLt] at h1
    | cons b bs =>
      cases cs with
      | nil => simp [lexLt] at h2
      | cons c cs =>
        rcases lt_trichotomy a b with hab | hab | hab
        · rcases lt_trichotomy b c with hbc | hbc | hbc
          · simp [lexLt, hab.trans hbc]
          · subst hbc; simp [lexLt, hab]
          · simp [lexLt, hbc, not_lt_of_lt hbc] at h2
        · subst hab
          rcases lt_trichotomy a c with hac | hac | hac
          · simp [lexLt, hac]
          · subst hac
            simp [lexLt, lt_irrefl] at h1 h2 ⊢
            exact ih _ _ h1 h2
          · simp [lexLt, lt_irrefl] at h1
            simp [lexLt, hac, not_lt_of_lt hac] at h2
        · simp [lexLt, hab, not_lt_of_lt hab] at h1

theorem lexLe_trans : ∀ as bs cs, lexLe as bs = true → lexLe bs cs = true →
    lexLe as cs = true := by
  intro as bs cs h1 h2
  rcases lexLe_eq_or_lt _ _ h1 with rfl | h1x
  · exact h2
  rcases lexLe_eq_or_lt _ _ h2 with rfl | h2x
  · exact h1
  exact lexLe_of_lexLt _ _ (lexLt_trans _ _ _ h1x h2x)

theorem lexLt_asymm : ∀ as bs, lexLt as bs = true → lexLt bs as = true → False := by
  intro as
  induction as with
  | nil => intro bs h1 h2; cases bs <;> simp [lexLt] at h1 h2
  | cons a as ih =>
    intro bs h1 h2
    cases bs with
    | nil => simp [lexLt] at h1
    | cons b bs =>
      rcases lt_trichotomy a b with hab | hab | hab
      · simp [lexLt, hab, not_lt_of_lt hab] at h2
      · subst hab
        simp [lexLt, lt_irrefl] at h1 h2
        exact ih _ h1 h2
      · simp [lexLt, hab, not_lt_of_lt hab] at h1

theorem lexLt_of_lexLe_of_ne : ∀ as bs, lexLe as bs = true → as ≠ bs →
    lexLt as bs = true := by
  intro as bs h hne
  rcases lexLe_eq_or_lt _ _ h with rfl | hx
  · exact absurd rfl hne
  · exact hx

instance : IsTotal (String × String) kwLe :=
  ⟨fun p q => lexLe_total p.1.data q.1.data⟩

instance : IsTrans (String × String) kwLe :=
  ⟨fun p q r => lexLe_trans p.1.data q.1.data r.1.data⟩

instance : IsAntisymm (String × String) kwLt :=
  ⟨fun _ _ h1 h2 => (lexLt_asymm _ _ h1 h2).elim⟩

theorem sortKw_perm (l : List (String × String)) : (sortKw l).Perm l :=
  List.perm_insertionSort kwLe l

theorem sortKw_sorted (l : List (String × String)) : (sortKw l).Sorted kwLe :=
  List.sorted_insertionSort kwLe l

theorem str_data_inj (a b : String) (h : a.data = b.data) : a = b :=
  congrArg String.mk h

theorem sorted_kwLt_of_sorted_kwLe (l : List (String × String))
    (hs : l.Sorted kwLe) (hn : (l.map Prod.fst).Nodup) : l.Sorted kwLt := by
  have hpair : l.Pairwise (fun p q : String × String => p.1 ≠ q.1) :=
    List.pairwise_map.mp hn
  refine (hs.and hpair).imp ?_
  rintro p q ⟨h1, h2⟩
  exact lexLt_of_lexLe_of_ne _ _ h1 (fun hx => h2 (str_data_inj _ _ hx))

/-- Two keyword-argument dicts whose non-cache pairs coincide as sets
produce the same sorted, filtered pair list. -/
theorem sortKw_filter_eq (kw1 kw2 : List (String × String))
    (h1 : (kw1.map Prod.fst).Nodup) (h2 : (kw2.map Prod.fst).Nodup)
    (hp : List.Perm (kw1.filter (fun p => p.1 != "cache"))
      (kw2.filter (fun p => p.1 != "cache"))) :
    (sortKw kw1).filter (fun p => p.1 != "cache") =
    (sortKw kw2).filter (fun p => p.1 != "cache") := by
  have hperm : List.Perm ((sortKw kw1).filter (fun p => p.1 != "cache"))
      ((sortKw kw2).filter (fun p => p.1 != "cache")) :=
    (((sortKw_perm kw1).filter _).trans hp).trans
      ((sortKw_perm kw2).filter _).symm
  have hs1 : ((sortKw kw1).filter (fun p => p.1 != "cache")).Sorted kwLe :=
    (sortKw_sorted kw1).sublist (List.filter_sublist _)
  have hs2 : ((sortKw kw2).filter (fun p => p.1 != "cache")).Sorted kwLe :=
    (sortKw_sorted kw2).sublist (List.filter_sublist _)
  have hn1 : (((sortKw kw1).filter (fun p => p.1 != "cache")).map Prod.fst).Nodup := by
    have hx : ((sortKw kw1).map Prod.fst).Nodup :=
      ((sortKw_perm kw1).map Prod.fst).nodup_iff.mpr h1
    exact hx.sublist ((List.filter_sublist _).map Prod.fst)
  have hn2 : (((sortKw kw2).filter (fun p => p.1 != "cache")).map Prod.fst).Nodup := by
    have hx : ((sortKw kw2).map Prod.fst).Nodup :=
      ((sortKw_perm kw2).map Prod.fst).nodup_iff.mpr h2
    exact hx.sublist ((List.filter_sublist _).map Prod.fst)
  exact List.eq_of_perm_of_sorted hperm
    (sorted_kwLt_of_sorted_kwLe _ hs1 hn1)
    (sorted_kwLt_of_sorted_kwLe _ hs2 hn2)


/-! ## Helper lemmas: the staleness predicates -/

theorem no_pending_volumes_false (vols : List Volume)
    (h : ∃ v ∈ vols, v.status ∉ (["available", "error", "in-use"] : List String)) :
    no_pending_volumes vols = false := by
  induction vols with
  | nil => simp at h
  | cons v rest ih =>
    rcases h with ⟨w, hw, hs⟩
    simp only [List.mem_cons] at hw
    rcases hw with rfl | hw
    · simp only [List.mem_cons, List.not_mem_nil, or_false, not_or] at hs
      obtain ⟨h1, h2, h3⟩ := hs
      simp [no_pending_volumes, h1, h2, h3]
    · by_cases hv : (v.status == "available" || v.status == "error"
          || v.status == "in-use") = true
      · simp only [no_pending_volumes, hv, Bool.not_true, Bool.false_eq_true,
          if_false]
        exact ih ⟨_, hw, hs⟩
      · simp [no_pending_volumes, Bool.eq_false_iff.mpr hv]

theorem no_pending_volumes_true (vols : List Volume)
    (h : ∀ v ∈ vols, v.status ∈ (["available", "error", "in-use"] : List String)) :
    no_pending_volumes vols = true := by
  induction vols with
  | nil => rfl
  | cons v rest ih =>
    have hv := h v (List.mem_cons_self v rest)
    simp only [List.mem_cons, List.not_mem_nil, or_false] at hv
    have hb : (v.status == "available" || v.status == "error"
        || v.status == "in-use") = true := by
      rcases hv with hv | hv | hv <;> simp [hv]
    simp only [no_pending_volumes, hb, Bool.not_true, Bool.false_eq_true, if_false]
    exact ih (fun w hw => h w (List.mem_cons_of_mem v hw))

theorem no_pending_images_false (imgs : List Image)
    (h : ∃ i ∈ imgs, i.status ∉ (["active", "deleted", "killed"] : List String)) :
    no_pending_images imgs = false := by
  induction imgs with
  | nil => simp at h
  | cons i rest ih =>
    rcases h with ⟨w, hw, hs⟩
    simp only [List.mem_cons] at hw
    rcases hw with rfl | hw
    · simp only [List.mem_cons, List.not_mem_nil, or_false, not_or] at hs
      obtain ⟨h1, h2, h3⟩ := hs
      simp [no_pending_images, h1, h2, h3]
    · by_cases hv : (i.status == "active" || i.status == "deleted"
          || i.status == "killed") = true
      · simp only [no_pending_images, hv, Bool.not_true, Bool.false_eq_true,
          if_false]
        exact ih ⟨_, hw, hs⟩
      · simp [no_pending_images, Bool.eq_false_iff.mpr hv]

theorem no_pending_images_true (imgs : List Image)
    (h : ∀ i ∈ imgs, i.status ∈ (["active", "deleted", "killed"] : List String)) :
    no_pending_images imgs = true := by
  induction imgs with
  | nil => rfl
  | cons i rest ih =>
    have hv := h i (List.mem_cons_self i rest)
    simp only [List.mem_cons, List.not_mem_nil, or_false] at hv
    have hb : (i.status == "active" || i.status == "deleted"
        || i.status == "killed") = true := by
      rcases hv with hv | hv | hv <;> simp [hv]
    simp only [no_pending_images, hb, Bool.not_true, Bool.false_eq_true, if_false]
    exact ih (fun w hw => h w (List.mem_cons_of_mem i hw))

theorem no_pending_stacks_false (sts : List Stack)
    (h : ∃ s ∈ sts, strContains s.stack_status "_COMPLETE" = false
      ∧ strContains s.stack_status "_FAILED" = false) :
    no_pending_stacks sts = false := by
  induction sts with
  | nil => simp at h
  | cons s rest ih =>
    rcases h with ⟨w, hw, h1, h2⟩
    simp only [List.mem_cons] at hw
    rcases hw with rfl | hw
    · simp [no_pending_stacks, h1, h2]
    · by_cases hv : (strContains s.stack_status "_COMPLETE"
          || strContains s.stack_status "_FAILED") = true
      · simp only [no_pending_stacks, hv, Bool.not_true, Bool.false_eq_true,
          if_false]
        exact ih ⟨_, hw, h1, h2⟩
      · simp [no_pending_stacks, Bool.eq_false_iff.mpr hv]

theorem no_pending_stacks_true (sts : List Stack)
    (h : ∀ s ∈ sts, strContains s.stack_status "_COMPLETE" = true
      ∨ strContains s.stack_status "_FAILED" = true) :
    no_pending_stacks sts = true := by
  induction sts with
  | nil => rfl
  | cons s rest ih =>
    have hv := h s (List.mem_cons_self s rest)
    have hb : (strContains s.stack_status "_COMPLETE"
        || strContains s.stack_status "_FAILED") = true := by
      rcases hv with hv | hv <;> simp [hv]
    simp only [no_pending_stacks, hb, Bool.not_true, Bool.false_eq_true, if_false]
    exact ih (fun w hw => h w (List.mem_cons_of_mem s hw))

/-! ## Claim theorems -/

/-- C8: the key `_make_cache_key` generates is a deterministic function of
the operation name, the connection identity (cloud name plus namespace)
and the canonicalized arguments: two calls whose non-`cache` keyword
pairs agree as a set — in particular, calls differing only in keyword
order, or only in a keyword named `cache` — map to the same key. -/
theorem make_cache_key_canonical (name : String) (nsp : Option String)
    (fname : String) (args : List String) (kw1 kw2 : List (String × String))
    (h1 : (kw1.map Prod.fst).Nodup) (h2 : (kw2.map Prod.fst).Nodup)
    (hp : List.Perm (kw1.filter (fun p => p.1 != "cache"))
      (kw2.filter (fun p => p.1 != "cache"))) :
    make_cache_key name nsp fname args kw1 =
      make_cache_key name nsp fname args kw2 := by
  unfold make_cache_key
  rw [sortKw_filter_eq kw1 kw2 h1 h2 hp]

/-- Witness for C8: reordering the keyword arguments and adding a `cache`
keyword leaves the generated key unchanged. -/
theorem make_cache_key_canonical_witness :
    make_cache_key "mycloud" none "list_volumes" []
        [("b", "2"), ("a", "1"), ("cache", "yes")] =
      make_cache_key "mycloud" none "list_volumes" [] [("a", "1"), ("b", "2")] :=
  make_cache_key_canonical "mycloud" none "list_volumes" []
    [("b", "2"), ("a", "1"), ("cache", "yes")] [("a", "1"), ("b", "2")]
    (by decide) (by decide) (by decide)

/-- C1: staleness gating of the cached collection reads.  For each cached
list with a staleness predicate (volumes, images, stacks): when at least
one member sits outside the fixed terminal set of its kind, the computed
collection is returned to the caller but no entry is stored, so a second
read within the TTL window fetches again; when every member is terminal,
the predicate accepts and the collection is cached, so a second read is
served without a fetch. -/
theorem staleness_gating :
    (∀ vols : List Volume,
      (∃ v ∈ vols, v.status ∉ (["available", "error", "in-use"] : List String)) →
      (cached_read none vols no_pending_volumes).value = vols ∧
      (cached_read none vols no_pending_volumes).entry = none ∧
      (cached_read (cached_read none vols no_pending_volumes).entry vols
        no_pending_volumes).fetched = true) ∧
    (∀ vols : List Volume,
      (∀ v ∈ vols, v.status ∈ (["available", "error", "in-use"] : List String)) →
      (cached_read none vols no_pending_volumes).entry = some vols ∧
      (cached_read (cached_read none vols no_pending_volumes).entry vols
        no_pending_volumes).fetched = false) ∧
    (∀ imgs : List Image,
      (∃ i ∈ imgs, i.status ∉ (["active", "deleted", "killed"] : List String)) →
      (cached_read none imgs no_pending_images).value = imgs ∧
      (cached_read none imgs no_pending_images).entry = none ∧
      (cached_read (cached_read none imgs no_pending_images).entry imgs
        no_pending_images).fetched = true) ∧
    (∀ imgs : List Image,
      (∀ i ∈ imgs, i.status ∈ (["active", "deleted", "killed"] : List String)) →
      (cached_read none imgs no_pending_images).entry = some imgs ∧
      (cached_read (cached_read none imgs no_pending_images).entry imgs
        no_pending_images).fetched = false) ∧
    (∀ sts : List Stack,
      (∃ s ∈ sts, strContains s.stack_status "_COMPLETE" = false
        ∧ strContains s.stack_status "_FAILED" = false) →
      (cached_read none sts no_pending_stacks).value = sts ∧
      (cached_read none sts no_pending_stacks).entry = none ∧
      (cached_read (cached_read none sts no_pending_stacks).entry sts
        no_pending_stacks).fetched = true) ∧
    (∀ sts : List Stack,
      (∀ s ∈ sts, strContains s.stack_status "_COMPLETE" = true
        ∨ strContains s.stack_status "_FAILED" = true) →
      (cached_read none sts no_pending_stacks).entry = some sts ∧
      (cached_read (cached_read none sts no_pending_stacks).entry sts
        no_pending_stacks).fetched = false) := by
  refine ⟨?_, ?_, ?_, ?_, ?_, ?_⟩
  · intro vols h
    simp [cached_read, no_pending_volumes_false vols h]
  · intro vols h
    simp [cached_read, no_pending_volumes_true vols h]
  · intro imgs h
    simp [cached_read, no_pending_images_false imgs h]
  · intro imgs h
    simp [cached_read, no_pending_images_true imgs h]
  · intro sts h
    simp [cached_read, no_pending_stacks_false sts h]
  · intro sts h
    simp [cached_read, no_pending_stacks_true sts h]

/-- C2: age gating and single flight of `list_servers`.  A call within
the age limit serves the snapshot with no lock or backend activity; a
stale call tries the lock with the blocking flag set exactly when the
snapshot is empty; a caller that fails to acquire (possible only with a
non-empty snapshot, since a blocking acquire returns true) gets the
existing snapshot with no fetch; a caller that acquires fetches, stores
the new snapshot and timestamp, and releases, in that order. -/
theorem list_servers_single_flight (st : ServersState) (now age fetchTime : Int)
    (tryAcquire : Bool → Bool) (fetch : Bool → List Server) (detailed : Bool)
    (hblock : tryAcquire true = true) :
    (now - st.servers_time < age →
      list_servers st now age tryAcquire fetch fetchTime detailed =
        ⟨st, st.servers, []⟩) ∧
    (age ≤ now - st.servers_time →
      ((list_servers st now age tryAcquire fetch fetchTime detailed).trace.head? =
        some (.acquire (st.servers.length == 0))) ∧
      (tryAcquire (st.servers.length == 0) = false →
        st.servers ≠ [] ∧
        list_servers st now age tryAcquire fetch fetchTime detailed =
          ⟨st, st.servers, [.acquire (st.servers.length == 0)]⟩) ∧
      (tryAcquire (st.servers.length == 0) = true →
        list_servers st now age tryAcquire fetch fetchTime detailed =
          ⟨⟨fetch detailed, fetchTime⟩, fetch detailed,
            [.acquire (st.servers.length == 0), .fetchTask, .store, .release]⟩)) := by
  constructor
  · intro h
    simp [list_servers, if_neg (not_le.mpr h)]
  · intro h
    refine ⟨?_, ?_, ?_⟩
    · by_cases htry : tryAcquire (st.servers.length == 0) = true
      · simp [list_servers, if_pos h, htry]
      · simp [list_servers, if_pos h, Bool.eq_false_iff.mpr htry]
    · intro htry
      have hne : st.servers ≠ [] := by
        intro hnil
        have hx : tryAcquire true = false := by simpa [hnil] using htry
        rw [hblock] at hx
        exact absurd hx (by decide)
      exact ⟨hne, by simp [list_servers, if_pos h, htry]⟩
    · intro htry
      simp [list_servers, if_pos h, htry]

/-- Witness for C2: a first caller with an empty, stale snapshot acquires
blockingly, fetches, and stores the fresh snapshot and timestamp. -/
theorem list_servers_single_flight_witness :
    list_servers ⟨[], 0⟩ 10 5 (fun b => b) (fun _ => [⟨"srv1", none⟩]) 10 false =
      ⟨⟨[⟨"srv1", none⟩], 10⟩, [⟨"srv1", none⟩],
        [.acquire true, .fetchTask, .store, .release]⟩ :=
  (((list_servers_single_flight ⟨[], 0⟩ 10 5 10 (fun b => b)
    (fun _ => [⟨"srv1", none⟩]) false rfl).2 (by decide)).2.2) rfl

/-- C10: whenever `list_servers` serves the stored snapshot — the
snapshot is fresh, or the lock is held elsewhere while a non-empty
snapshot exists — the `detailed` argument of the current call has no
effect on the outcome. -/
theorem list_servers_detail_no_effect (st : ServersState) (now age fetchTime : Int)
    (tryAcquire : Bool → Bool) (fetch : Bool → List Server) (d1 d2 : Bool)
    (h : now - st.servers_time < age ∨
      (tryAcquire (st.servers.length == 0) = false ∧ st.servers ≠ [])) :
    list_servers st now age tryAcquire fetch fetchTime d1 =
      list_servers st now age tryAcquire fetch fetchTime d2 := by
  rcases h with h | ⟨h, _⟩
  · simp [list_servers, if_neg (not_le.mpr h)]
  · by_cases hage : age ≤ now - st.servers_time
    · simp [list_servers, if_pos hage, h]
    · simp [list_servers, if_neg hage]

/-- Witness for C10: with the lock held elsewhere and a non-empty stale
snapshot, a detailed and a non-detailed call coincide even though the
fetch function distinguishes them. -/
theorem list_servers_detail_no_effect_witness :
    list_servers ⟨[⟨"s", none⟩], 8⟩ 20 5 (fun _ => false)
        (fun b => if b then [] else [⟨"x", none⟩]) 20 true =
      list_servers ⟨[⟨"s", none⟩], 8⟩ 20 5 (fun _ => false)
        (fun b => if b then [] else [⟨"x", none⟩]) 20 false :=
  list_servers_detail_no_effect ⟨[⟨"s", none⟩], 8⟩ 20 5 20 (fun _ => false)
    (fun b => if b then [] else [⟨"x", none⟩]) true false
    (Or.inr ⟨rfl, by decide⟩)

/-- C9: floating-IP attachment is idempotent by inspection.  When the
address the server already carries (through `meta.get_server_ip`) equals
the requested `floating_ip_address`, `_attach_ip_to_server` returns the
server at once: no neutron or nova task is submitted, nothing is logged,
and no wait poll is issued. -/
theorem attach_ip_idempotent (server : Server) (serverIp : Server → Option String)
    (fip : FloatingIp) (hasNetwork skipAttach : Bool) (neutron : NeutronCall)
    (nova : NovaCall) (wait : Bool) (polls : List Server)
    (h : serverIp server = some fip.floating_ip_address) :
    attach_ip_to_server server serverIp fip hasNetwork skipAttach neutron nova
      wait polls = ⟨.ok server, false, false, false, 0⟩ := by
  simp [attach_ip_to_server, optEqStr, h]

/-- Witness for C9: attaching an address the server already carries
returns the server with zero backend activity. -/
theorem attach_ip_idempotent_witness :
    attach_ip_to_server ⟨"s1", none⟩ (fun _ => some "1.2.3.4") ⟨"f1", "1.2.3.4"⟩
        true false .ok .ok true [] =
      ⟨.ok ⟨"s1", none⟩, false, false, false, 0⟩ :=
  attach_ip_idempotent ⟨"s1", none⟩ (fun _ => some "1.2.3.4") ⟨"f1", "1.2.3.4"⟩
    true false .ok .ok true [] rfl

/-- C3: evaluation at the failing input.  On a cloud with the network
service, a neutron attach that raises `OpenStackCloudURINotFound` logs
the fallback but returns the server without ever submitting the nova
attach — the nova leg sits in the `else` branch of `has_service` — while
`delete_floating_ip` and `create_floating_ip` do retry their full
operation against nova on the same signal, and any other neutron error
propagates with no fallback. -/
theorem attach_fallback_never_reaches_nova :
    (attach_ip_to_server ⟨"s1", none⟩ (fun _ => none) ⟨"f1", "1.2.3.4"⟩ true false
        .uriNotFound .ok false [] =
      ⟨.ok ⟨"s1", none⟩, true, false, true, 0⟩) ∧
    (delete_floating_ip true .uriNotFound .ok "f1" = ⟨.ok true, true, true⟩) ∧
    (delete_floating_ip true (.otherErr "server fault") .ok "f1" =
      ⟨.error (.cloudException "server fault"), false, false⟩) ∧
    (create_floating_ip true .uriNotFound ⟨"n1", "10.0.0.1"⟩ .ok ⟨"p1", "172.16.0.1"⟩
        id id = ⟨.ok ⟨"p1", "172.16.0.1"⟩, true, true⟩) ∧
    (create_floating_ip true (.otherErr "server fault") ⟨"n1", "10.0.0.1"⟩ .ok
        ⟨"p1", "172.16.0.1"⟩ id id =
      ⟨.error (.cloudException "server fault"), false, false⟩) :=
  ⟨rfl, rfl, rfl, rfl, rfl⟩

/-- C4: convergence of `create_volume` with `wait=True`.  In the wait
loop a poll with status `available` returns that volume after that poll,
a poll with status `error` raises there, a missing volume or any other
status continues polling, and an exhausted deadline times out; lifted to
the verb, a poll sequence ending in `available` yields that volume, one
hitting `error` raises, and one that never terminates raises the timeout
error; against a backend reporting `creating` once and then `available`
the verb returns the available descriptor after exactly 2 polls. -/
theorem create_volume_convergence :
    (∀ (v : Volume) (polls : List (Option Volume)), v.status = "available" →
      create_volume_wait (some v :: polls) = (.available v, 1)) ∧
    (∀ (v : Volume) (polls : List (Option Volume)), v.status = "error" →
      create_volume_wait (some v :: polls) = (.errorStatus, 1)) ∧
    (∀ polls : List (Option Volume),
      create_volume_wait (none :: polls) =
        ((create_volume_wait polls).1, (create_volume_wait polls).2 + 1)) ∧
    (∀ (v : Volume) (polls : List (Option Volume)),
      v.status ≠ "available" → v.status ≠ "error" →
      create_volume_wait (some v :: polls) =
        ((create_volume_wait polls).1, (create_volume_wait polls).2 + 1)) ∧
    (create_volume_wait [] = (.timedOut, 0)) ∧
    (∀ (vol w : Volume) (polls : List (Option Volume)), vol.status ≠ "error" →
      (create_volume_wait polls).1 = .available w →
      (create_volume none (.ok vol) true polls id).result = .ok w) ∧
    (∀ (vol : Volume) (polls : List (Option Volume)), vol.status ≠ "error" →
      (create_volume_wait polls).1 = .errorStatus →
      (create_volume none (.ok vol) true polls id).result =
        .error (.cloudException "Error in creating volume, please check logs")) ∧
    (∀ (vol : Volume) (polls : List (Option Volume)), vol.status ≠ "error" →
      (create_volume_wait polls).1 = .timedOut →
      (create_volume none (.ok vol) true polls id).result =
        .error (.timeoutExc "Timeout waiting for the volume to be available.")) ∧
    (create_volume none (.ok ⟨"v1", "creating"⟩) true
        [some ⟨"v1", "creating"⟩, some ⟨"v1", "available"⟩] id =
      ⟨.ok ⟨"v1", "available"⟩, true, 2⟩) := by
  refine ⟨?_, ?_, ?_, ?_, rfl, ?_, ?_, ?_, rfl⟩
  · intro v polls h
    simp [create_volume_wait, h]
  · intro v polls h
    simp [create_volume_wait, h]
  · intro polls
    simp [create_volume_wait]
  · intro v polls h1 h2
    simp [create_volume_wait, beq_eq_false_iff_ne.mpr h1, beq_eq_false_iff_ne.mpr h2]
  · intro vol w polls hv hp
    rcases hcv : create_volume_wait polls with ⟨res, n⟩
    rw [hcv] at hp
    simp at hp
    subst hp
    simp [create_volume, beq_eq_false_iff_ne.mpr hv, hcv]
  · intro vol polls hv hp
    rcases hcv : create_volume_wait polls with ⟨res, n⟩
    rw [hcv] at hp
    simp at hp
    subst hp
    simp [create_volume, beq_eq_false_iff_ne.mpr hv, hcv]
  · intro vol polls hv hp
    rcases hcv : create_volume_wait polls with ⟨res, n⟩
    rw [hcv] at hp
    simp at hp
    subst hp
    simp [create_volume, beq_eq_false_iff_ne.mpr hv, hcv]

/-- C7: the bounded transient-import retry of `_upload_image_task`.  A
task poll reporting `failure` with message exactly `IMAGE_ERROR_396`
causes exactly one resubmission of the whole import task and polling
resumes; a `failure` with any other message raises immediately, with no
resubmission; a transient `396` occurrence followed by success completes
with exactly one resubmission on record. -/
theorem image_task_retry_396 :
    (∀ (rest : List TaskPoll) (iid : String),
      import_phase (.st "failure" IMAGE_ERROR_396 iid :: rest) =
        ⟨(import_phase rest).result, (import_phase rest).resubmits + 1⟩) ∧
    (∀ (rest : List TaskPoll) (msg iid : String), msg ≠ IMAGE_ERROR_396 →
      import_phase (.st "failure" msg iid :: rest) = ⟨.failed msg, 0⟩) ∧
    (∀ (fetches : List ImgFetch) (rest : List TaskPoll) (msg iid : String),
      msg ≠ IMAGE_ERROR_396 →
      upload_image_task_wait (.st "failure" msg iid :: rest) fetches =
        (.error (.cloudException ("Image creation failed: " ++ msg)), 0)) ∧
    (upload_image_task_wait
        [.st "failure" IMAGE_ERROR_396 "", .st "success" "" "img1"]
        [.found ⟨"img1", "active"⟩] = (.ok ⟨"img1", "active"⟩, 1)) := by
  refine ⟨?_, ?_, ?_, ?_⟩
  · intro rest iid
    simp [import_phase]
  · intro rest msg iid h
    simp [import_phase, beq_eq_false_iff_ne.mpr h]
  · intro fetches rest msg iid h
    simp [upload_image_task_wait, import_phase, beq_eq_false_iff_ne.mpr h]
  · rfl

/-- C5 counterexample: `delete_image` is not an idempotent boolean
delete.  With the target absent it raises (the `image.id` attribute read
on `None` fails inside `shade_exceptions`) instead of returning `False`,
and on a successful delete it returns Python `None`, not `True` — so a
second call in sequence raises rather than returning `False`. -/
theorem delete_image_not_boolean :
    (delete_image none true false [] =
      .error (.cloudException "Error in deleting image")) ∧
    (delete_image (some ⟨"i1", "active"⟩) true false [] = .ok none) :=
  ⟨rfl, rfl⟩

/-- C5 amended: `delete_volume`, `delete_server`, `delete_stack`,
`delete_security_group` and `delete_floating_ip` return `True` when they
delete and `False`, without raising, when the target is already absent —
so two sequential calls yield `True` then `False` — but `delete_image`
returns `None` on success and raises when the image is absent. -/
theorem delete_verbs_idempotent_except_image :
    (∀ polls : List (Option Volume),
      (delete_volume none true false polls).result = .ok false) ∧
    (∀ (v : Volume) (polls : List (Option Volume)),
      (delete_volume (some v) true false polls).result = .ok true) ∧
    (delete_stack none true = .ok false) ∧
    (∀ s : Stack, delete_stack (some s) true = .ok true) ∧
    (delete_security_group none "neutron" true = .ok false) ∧
    (∀ g : String, delete_security_group (some g) "neutron" true = .ok true) ∧
    (∀ fid : String, (delete_floating_ip true .resourceNotFound .ok fid).result =
      .ok false) ∧
    (∀ fid : String, (delete_floating_ip true .ok .ok fid).result = .ok true) ∧
    ((delete_server none false none [] (.ok true) .ok false [] true true).result =
      .ok false) ∧
    (∀ s : Server,
      (delete_server (some s) false none [] (.ok true) .ok false [] true
        true).result = .ok true) ∧
    (∀ s : Server,
      (delete_server (some s) false none [] (.ok true) .notFound false [] true
        true).result = .ok false) ∧
    (∀ (i : Image) (polls : List (Option Image)),
      delete_image (some i) true false polls = .ok none) ∧
    (delete_image none true false [] =
      .error (.cloudException "Error in deleting image")) := by
  refine ⟨fun _ => rfl, fun _ _ => rfl, rfl, fun _ => rfl, rfl, fun _ => rfl,
    fun _ => rfl, fun _ => rfl, rfl, fun _ => rfl, fun _ => rfl,
    fun _ _ => rfl, rfl⟩

/-- C6 counterexample: invalidation does not cover every mutation exit
path.  When the `VolumeCreate` task raises, `create_volume` propagates
the error without invalidating the cached volume list (the `invalidate`
call sits after the `with` block), and `delete_server` with `wait=False`
returns `True` right after the delete task, reaching neither the volume
invalidation nor the `_servers_time` decrement. -/
theorem mutation_invalidation_missing_on_exit :
    ((create_volume none (.error "boom") true [] id).volumesInvalidated = false) ∧
    (delete_server (some ⟨"s1", some "img1"⟩) false none [] (.ok true) .ok false []
        true true = ⟨.ok true, false, false⟩) :=
  ⟨rfl, rfl⟩

/-- C6 amended: `create_volume` invalidates the cached volume list on
every path on which the create task returned — success, error status,
wait, or timeout — but not when the create task itself raises; and
`delete_server` ages the server snapshot (and conditionally invalidates
the volume cache) only on the waiting path: with `wait=False` it returns
without touching either. -/
theorem mutation_invalidation_actual :
    (∀ (vol : Volume) (wait : Bool) (polls : List (Option Volume))
      (nv : Volume → Volume),
      (create_volume none (.ok vol) wait polls nv).volumesInvalidated = true) ∧
    (∀ (m : String) (wait : Bool) (polls : List (Option Volume))
      (nv : Volume → Volume),
      (create_volume none (.error m) wait polls nv).volumesInvalidated = false) ∧
    (∀ (s : Server) (hasVol volRel : Bool) (polls : List ServerPoll),
      delete_server (some s) false none [] (.ok true) .ok false polls hasVol
        volRel = ⟨.ok true, false, false⟩) ∧
    (∀ (s : Server) (volRel : Bool) (rest : List ServerPoll),
      delete_server (some s) false none [] (.ok true) .ok true
        (.notFoundExc :: rest) true volRel =
        ⟨.ok true, serverImageFalsy s || volRel, true⟩) := by
  refine ⟨?_, ?_, ?_, ?_⟩
  · intro vol wait polls nv
    by_cases hs : (vol.status == "error") = true
    · simp [create_volume, hs]
    · rcases hcv : create_volume_wait polls with ⟨res, n⟩
      cases wait
      · simp [create_volume, Bool.eq_false_iff.mpr hs]
      · cases res <;> simp [create_volume, Bool.eq_false_iff.mpr hs, hcv]
  · intro m wait polls nv
    rfl
  · intro s hasVol volRel polls
    rfl
  · intro s volRel rest
    rfl
